import Mathlib

/-!
Verification development for the NextRide MTA data pipeline.

The definitions below are a shallow embedding of the repository's Python
code: the GTFS-realtime feed decoder (`utils/helpers.py`), the realtime and
alert reconcilers (`mta_data_pipeline/upload_real_time_feed_to_postgres.py`,
`upload_alerts_feed_to_postgres.py`), the SQL query layer used by the bot
(`utils/bot_queries.py`), and the subscription handlers
(`utils/bot_helpers.py`).  Timestamps are modelled as `Int` epoch seconds,
SQL `NULL` as `Option`, and tables as lists of rows; SERIAL primary keys are
modelled by an explicit counter.
-/

namespace NextRide

/-! ## Feed entities (the GTFS-realtime wire model)

Mirrors the protobuf fields accessed by `process_gtfs_feed_data` in
`src/utils/helpers.py`.  Proto3 string fields read as `""` when absent,
which is exactly how the Python code tests presence (`if start_time and
start_date`), so we keep them as plain `String`.  Message-typed optional
fields (`arrival`, `departure`, `start`, `end`, `trip_update`, `alert`) are
`Option` since the code guards them with `HasField`. -/

structure TripDescriptor where
  trip_id : String
  start_time : String
  start_date : String
  route_id : String
deriving DecidableEq

structure StopTimeUpdateEntity where
  stop_id : String
  arrival : Option Int
  departure : Option Int
deriving DecidableEq

structure TripUpdateEntity where
  trip : TripDescriptor
  stop_time_update : List StopTimeUpdateEntity
deriving DecidableEq

structure AlertEntity where
  header_translations : List String
  description_translations : List String
  active_period : List (Option Int × Option Int)
  informed_entity : List (Option String × Option String × Option String)
deriving DecidableEq

/-- One feed entity.  `raises` models a Python exception thrown while this
entity is being processed (in the code, `datetime.strptime` on a malformed
start date/time string is the exception site; it fires before any record of
the entity is appended).  `trip_update` and `alert` are independent
`HasField` checks in the code, so both may be populated. -/
structure FeedEntity where
  id : String
  trip_update : Option TripUpdateEntity
  alert : Option AlertEntity
  raises : Bool
deriving DecidableEq

/-- A fetched feed: a `FeedMessage` with its entity list. -/
structure Feed where
  entity : List FeedEntity
deriving DecidableEq

/-! ## Decoded records (outputs of `process_gtfs_feed_data`) -/

/-- A decoded trip update `(trip_id, start_datetime, route_id)`.  The
`start_datetime` holds the result of
`datetime.strptime(f"{start_date} {start_time}", '%Y%m%d %H:%M:%S')`,
modelled as the combined source string. -/
structure TripUpdateRow where
  trip_id : String
  start_datetime : Option String
  route_id : String
deriving DecidableEq

/-- A decoded stop-time update `(trip_id, stop_id, arrival_time,
departure_time)`. -/
structure StopTimeRow where
  trip_id : String
  stop_id : String
  arrival_time : Option Int
  departure_time : Option Int
deriving DecidableEq

/-- A decoded alert dict, as appended to the `alerts` list. -/
structure AlertRecord where
  alert_id : String
  header_text : Option String
  description_text : Option String
  active_periods : List (Option Int × Option Int)
  informed_entities : List (Option String × Option String × Option String)
deriving DecidableEq

/-- The three accumulator lists of `process_gtfs_feed_data`. -/
structure DecodedBatch where
  trip_updates : List TripUpdateRow
  stop_time_updates : List StopTimeRow
  alerts : List AlertRecord
deriving DecidableEq

/-- Empty accumulators, as initialised at the top of
`process_gtfs_feed_data`. -/
def DecodedBatch.empty : DecodedBatch := ⟨[], [], []⟩

/-- The derived trip row for one trip-update entity: `start_datetime` is
computed only when both `start_date` and `start_time` are truthy (non-empty),
mirroring `if start_time and start_date` in `process_gtfs_feed_data`. -/
def decodeTripRow (tu : TripUpdateEntity) : TripUpdateRow :=
  { trip_id := tu.trip.trip_id
    start_datetime :=
      if tu.trip.start_time ≠ "" ∧ tu.trip.start_date ≠ "" then
        some (tu.trip.start_date ++ " " ++ tu.trip.start_time)
      else none
    route_id := tu.trip.route_id }

/-- The stop-time rows appended for one trip-update entity, in feed order. -/
def decodeStopRows (tu : TripUpdateEntity) : List StopTimeRow :=
  tu.stop_time_update.map fun st =>
    { trip_id := tu.trip.trip_id
      stop_id := st.stop_id
      arrival_time := st.arrival
      departure_time := st.departure }

/-- The alert record appended for one alert entity; header and description
come from the first translation when the translation list is non-empty. -/
def decodeAlertRecord (eid : String) (a : AlertEntity) : AlertRecord :=
  { alert_id := eid
    header_text := a.header_translations.head?
    description_text := a.description_translations.head?
    active_periods := a.active_period
    informed_entities := a.informed_entity }

/-- Processing of one entity that does not raise: the `HasField
('trip_update')` branch appends a trip row and its stop rows, then the
`HasField('alert')` branch appends an alert record. -/
def processEntity (acc : DecodedBatch) (e : FeedEntity) : DecodedBatch :=
  let acc1 :=
    match e.trip_update with
    | some tu =>
        { acc with
          trip_updates := acc.trip_updates ++ [decodeTripRow tu]
          stop_time_updates := acc.stop_time_updates ++ decodeStopRows tu }
    | none => acc
  match e.alert with
  | some a => { acc1 with alerts := acc1.alerts ++ [decodeAlertRecord e.id a] }
  | none => acc1

/-- Inner entity loop.  The `Bool` result records whether an exception
escaped this feed's entities (it is caught only at the very outside of the
`for feed in feed_list` loop). -/
def processEntities (acc : DecodedBatch) : List FeedEntity → DecodedBatch × Bool
  | [] => (acc, false)
  | e :: rest =>
      if e.raises then (acc, true)
      else processEntities (processEntity acc e) rest

/-- Outer feed loop.  The single `except Exception` around the whole loop
means that an exception raised anywhere returns the accumulators as they
stand, skipping every remaining entity and feed. -/
def processFeedsFrom (acc : DecodedBatch) : List Feed → DecodedBatch
  | [] => acc
  | f :: rest =>
      match processEntities acc f.entity with
      | (acc2, true) => acc2
      | (acc2, false) => processFeedsFrom acc2 rest

/-- `process_gtfs_feed_data` from `src/utils/helpers.py`. -/
def process_gtfs_feed_data (feed_list : List Feed) : DecodedBatch :=
  processFeedsFrom DecodedBatch.empty feed_list

/-! ## Live real-time state (`trips_real_time` and `stop_time_update`)

Schema from `REAL_TIME_TABLES` in `src/mta_data_pipeline/create_schema.py`:
`trips_real_time` has `trip_id` as PRIMARY KEY; `stop_time_update` has a
SERIAL `id` PRIMARY KEY and no other uniqueness constraint. -/

/-- One stored `stop_time_update` row; `id` is the SERIAL primary key. -/
structure StopTimeTableRow where
  id : Nat
  trip_id : String
  stop_id : String
  arrival_time : Option Int
  departure_time : Option Int
deriving DecidableEq

/-- The live tables plus the next SERIAL value for `stop_time_update.id`. -/
structure LiveState where
  trips_real_time : List TripUpdateRow
  stop_time_update : List StopTimeTableRow
  next_id : Nat
deriving DecidableEq

/-- `INSERT ... ON CONFLICT DO NOTHING` into `trips_real_time`: rows are
inserted one by one (`executemany`); a row whose `trip_id` equals that of an
already-present row conflicts with the primary key and is skipped. -/
def insertTripsDoNothing (table : List TripUpdateRow) :
    List TripUpdateRow → List TripUpdateRow
  | [] => table
  | r :: rs =>
      if table.any fun t => t.trip_id = r.trip_id then
        insertTripsDoNothing table rs
      else insertTripsDoNothing (table ++ [r]) rs

/-- `INSERT ... ON CONFLICT DO NOTHING` into `stop_time_update`: the only
constrained column is the SERIAL `id`, which is freshly generated per row,
so no conflict ever fires and every batch row is inserted. -/
def insertStopTimesDoNothing (table : List StopTimeTableRow) (next : Nat) :
    List StopTimeRow → List StopTimeTableRow × Nat
  | [] => (table, next)
  | r :: rs =>
      insertStopTimesDoNothing
        (table ++ [⟨next, r.trip_id, r.stop_id, r.arrival_time, r.departure_time⟩])
        (next + 1) rs

/-- The realtime reconciliation of
`src/mta_data_pipeline/upload_real_time_feed_to_postgres.py`: delete all
rows of both live tables, then insert the decoded batch (the `if
trip_updates:` guards only skip an insert of an empty list, which is a
no-op). -/
def realtimeReconcile (s : LiveState) (trips : List TripUpdateRow)
    (stops : List StopTimeRow) : LiveState :=
  let s1 : LiveState := { s with trips_real_time := [] }
  let s2 : LiveState := { s1 with stop_time_update := [] }
  let tr := insertTripsDoNothing s2.trips_real_time trips
  let (st, nid) := insertStopTimesDoNothing s2.stop_time_update s2.next_id stops
  { trips_real_time := tr, stop_time_update := st, next_id := nid }

/-- The same pipeline run with a storage failure injected before statement
`k` (0 = delete trips, 1 = delete stop times, 2 = insert trips, 3 = insert
stop times).  Each statement runs in its own transaction and is committed
individually by `Database.execute_sql_query`; a failing statement is rolled
back (no effect) and the exception propagates — `upload_real_time_feed`
has no handler, so no later statement runs.  The `Bool` is whether an error
was surfaced to the caller. -/
def runRealtimeCycle (s : LiveState) (trips : List TripUpdateRow)
    (stops : List StopTimeRow) (failAt : Option Nat) : LiveState × Bool :=
  if failAt = some 0 then (s, true) else
  let s1 : LiveState := { s with trips_real_time := [] }
  if failAt = some 1 then (s1, true) else
  let s2 : LiveState := { s1 with stop_time_update := [] }
  if failAt = some 2 then (s2, true) else
  let tr := insertTripsDoNothing s2.trips_real_time trips
  let s3 : LiveState := { s2 with trips_real_time := tr }
  if failAt = some 3 then (s3, true) else
  let (st, nid) := insertStopTimesDoNothing s3.stop_time_update s3.next_id stops
  ({ s3 with stop_time_update := st, next_id := nid }, false)

/-! ## Alert state (`alerts`, `active_periods`, `informed_entities`)

Schema from `ALERT_TABLES` in `src/mta_data_pipeline/create_schema.py`:
`alerts.alert_id` is UNIQUE; the child tables have SERIAL `id` primary keys
and an `alert_id` foreign key. -/

/-- One `alerts` row (the SERIAL `id` and `last_updated` default column are
not touched by the reconciler and are omitted). -/
structure AlertsRow where
  alert_id : String
  header_text : Option String
  description_text : Option String
deriving DecidableEq

/-- One `active_periods` row; `id` is the SERIAL primary key. -/
structure ActivePeriodRow where
  id : Nat
  alert_id : String
  start_time : Option Int
  end_time : Option Int
deriving DecidableEq

/-- One `informed_entities` row; `id` is the SERIAL primary key. -/
structure InformedEntityRow where
  id : Nat
  alert_id : String
  agency_id : Option String
  route_id : Option String
  stop_id : Option String
deriving DecidableEq

/-- The three alert tables plus a shared counter for fresh SERIAL ids. -/
structure AlertDbState where
  alerts : List AlertsRow
  active_periods : List ActivePeriodRow
  informed_entities : List InformedEntityRow
  next_id : Nat
deriving DecidableEq

/-- Fresh-id insertion of one alert's period rows, in batch order. -/
def insertPeriodRows (table : List ActivePeriodRow) (next : Nat)
    (aid : String) : List (Option Int × Option Int) → List ActivePeriodRow × Nat
  | [] => (table, next)
  | (st, en) :: rs =>
      insertPeriodRows (table ++ [⟨next, aid, st, en⟩]) (next + 1) aid rs

/-- Fresh-id insertion of one alert's informed-entity rows, in batch order. -/
def insertEntityRows (table : List InformedEntityRow) (next : Nat)
    (aid : String) :
    List (Option String × Option String × Option String) →
      List InformedEntityRow × Nat
  | [] => (table, next)
  | (ag, rt, sp) :: rs =>
      insertEntityRows (table ++ [⟨next, aid, ag, rt, sp⟩]) (next + 1) aid rs

/-- One iteration of the alert loop in
`src/mta_data_pipeline/upload_alerts_feed_to_postgres.py`: upsert the
header row by `alert_id` (UPDATE if a row with this `alert_id` exists, else
INSERT), then delete and re-insert this alert's `active_periods` and
`informed_entities` rows. -/
def reconcileAlert (s : AlertDbState) (a : AlertRecord) : AlertDbState :=
  let existing := s.alerts.any fun r => r.alert_id = a.alert_id
  let alerts' :=
    if existing then
      s.alerts.map fun r =>
        if r.alert_id = a.alert_id then
          { r with header_text := a.header_text,
                   description_text := a.description_text }
        else r
    else s.alerts ++ [⟨a.alert_id, a.header_text, a.description_text⟩]
  let periods0 := s.active_periods.filter fun r => r.alert_id ≠ a.alert_id
  let periodsIns := insertPeriodRows periods0 s.next_id a.alert_id a.active_periods
  let ents0 := s.informed_entities.filter fun r => r.alert_id ≠ a.alert_id
  let entsIns := insertEntityRows ents0 periodsIns.2 a.alert_id a.informed_entities
  { alerts := alerts', active_periods := periodsIns.1,
    informed_entities := entsIns.1, next_id := entsIns.2 }

/-- The full alert reconciliation loop over the decoded batch. -/
def reconcileAlerts (s : AlertDbState) (batch : List AlertRecord) : AlertDbState :=
  batch.foldl reconcileAlert s

/-! ## Feed fetching (`fetch_gtfs_realtime_data` and the fetch loop)

`fetch_gtfs_realtime_data` in `src/utils/helpers.py` catches only
`requests.exceptions.RequestException` (raised by the GET itself and by
`raise_for_status` on a non-success status) and returns `None`;
`FeedMessage.ParseFromString` on a malformed payload raises a protobuf
`DecodeError`, which is not a `RequestException` and escapes the function. -/

/-- Possible outcomes of one feed-group HTTP round trip. -/
inductive FetchOutcome where
  | success (entities : List FeedEntity)
  | requestFailure
  | malformedPayload
deriving DecidableEq

/-- `fetch_gtfs_realtime_data`: `.ok none` models the logged `return None`
path, `.error` models an uncaught exception propagating to the caller. -/
def fetch_gtfs_realtime_data : FetchOutcome → Except String (Option Feed)
  | .success es => .ok (some ⟨es⟩)
  | .requestFailure => .ok none
  | .malformedPayload => .error ("DecodeError")

/-- The fetch loop of `upload_real_time_feed_to_postgres.py`: falsy results
(`None`) are logged and skipped, truthy feeds are appended; an uncaught
exception aborts the whole loop (there is no handler in `__main__`). -/
def fetchFeedList : List FetchOutcome → Except String (List Feed)
  | [] => .ok []
  | o :: os =>
      match fetch_gtfs_realtime_data o with
      | .error e => .error e
      | .ok none => fetchFeedList os
      | .ok (some f) =>
          match fetchFeedList os with
          | .error e => .error e
          | .ok fs => .ok (f :: fs)

/-! ## Query layer (`src/utils/bot_queries.py`)

The SQL statements are embedded with list semantics: inner joins are
cross products filtered by the join condition, SQL comparisons against
`NULL` are never true, `ORDER BY` is an insertion sort, and `DISTINCT ON`
keeps the first row of each key group of the sorted list. -/

/-- One `stops` row (static table; `stop_id` is its primary key, `address`
and `trains` were added by the static pipeline and may be NULL). -/
structure StopsRow where
  stop_id : String
  stop_name : String
  address : Option String
  trains : Option String
deriving DecidableEq

/-- One `subscriptions` row. -/
structure SubscriptionRow where
  subscription_id : Nat
  user_id : Nat
  stop_id : Option String
  route_id : Option String
deriving DecidableEq

/-- SQL equality on nullable columns: `x = y` is true only when both sides
are non-NULL and equal. -/
def sqlEqOpt (a b : Option String) : Bool :=
  match a, b with
  | some x, some y => x == y
  | _, _ => false

/-- A joined row of `get_station_departures` after the WHERE clause,
before `DISTINCT ON`: its route id and its (non-NULL, future) departure. -/
structure DepartureCand where
  route_id : String
  departure_time : Int
deriving DecidableEq

/-- The `FROM`/`JOIN`/`WHERE` part of `get_station_departures`:
`trips_real_time ⋈ stop_time_update ⋈ stops` on trip id and stop id,
restricted to the queried stop with `departure_time > NOW()` (a NULL
departure fails the comparison). -/
def departureCands (trips : List TripUpdateRow) (stus : List StopTimeTableRow)
    (stops : List StopsRow) (station_id : String) (now : Int) :
    List DepartureCand :=
  trips.flatMap fun t =>
    stus.flatMap fun stu =>
      stops.filterMap fun s =>
        match stu.departure_time with
        | some d =>
            if t.trip_id = stu.trip_id ∧ stu.stop_id = s.stop_id ∧
               s.stop_id = station_id ∧ now < d
            then some ⟨t.route_id, d⟩ else none
        | none => none

/-- The `ORDER BY t.route_id, stu.departure_time ASC` ordering. -/
def depLe (a b : DepartureCand) : Prop :=
  a.route_id < b.route_id ∨
    (a.route_id = b.route_id ∧ a.departure_time ≤ b.departure_time)

instance : DecidableRel depLe := fun a b => by unfold depLe; infer_instance

instance : IsTotal DepartureCand depLe := by
  constructor
  intro a b
  rcases lt_trichotomy a.route_id b.route_id with h | h | h
  · exact Or.inl (Or.inl h)
  · rcases le_total a.departure_time b.departure_time with hd | hd
    · exact Or.inl (Or.inr ⟨h, hd⟩)
    · exact Or.inr (Or.inr ⟨h.symm, hd⟩)
  · exact Or.inr (Or.inl h)

instance : IsTrans DepartureCand depLe := by
  constructor
  intro a b c hab hbc
  rcases hab with h1 | ⟨e1, d1⟩
  · rcases hbc with h2 | ⟨e2, d2⟩
    · exact Or.inl (h1.trans h2)
    · exact Or.inl (by rw [← e2]; exact h1)
  · rcases hbc with h2 | ⟨e2, d2⟩
    · exact Or.inl (by rw [e1]; exact h2)
    · exact Or.inr ⟨e1.trans e2, d1.trans d2⟩

/-- `DISTINCT ON (route_id)` over an already ordered list: keep the first
row of each route, walking left to right. -/
def distinctOnRouteAux (seen : List String) :
    List DepartureCand → List DepartureCand
  | [] => []
  | r :: rest =>
      if r.route_id ∈ seen then distinctOnRouteAux seen rest
      else r :: distinctOnRouteAux (r.route_id :: seen) rest

/-- `ROUND(EXTRACT(EPOCH FROM (departure - NOW())) / 60)`: the number of
seconds divided by 60 and rounded to the nearest integer, halves away from
zero (the output rows all have a positive difference, so this is
round-half-up). -/
def etaMinutes (diffSeconds : Int) : Int := (2 * diffSeconds + 60) / 120

/-- An output row of `get_station_departures`. -/
structure DepartureOut where
  route_id : String
  departure_time : Int
  eta : Int
deriving DecidableEq

/-- `get_station_departures` from `src/utils/bot_queries.py`. -/
def get_station_departures (trips : List TripUpdateRow)
    (stus : List StopTimeTableRow) (stops : List StopsRow)
    (station_id : String) (now : Int) : List DepartureOut :=
  let cands := departureCands trips stus stops station_id now
  let sorted := List.insertionSort depLe cands
  let picked := distinctOnRouteAux [] sorted
  picked.map fun c =>
    ⟨c.route_id, c.departure_time, etaMinutes (c.departure_time - now)⟩

/-- `start_time > NOW()` on a nullable column (NULL compares false). -/
def sqlStartFuture (t : Option Int) (now : Int) : Bool :=
  match t with
  | some s => decide (now < s)
  | none => false

/-- `end_time < NOW()` on a nullable column (NULL compares false). -/
def sqlEndPast (t : Option Int) (now : Int) : Bool :=
  match t with
  | some e => decide (e < now)
  | none => false

/-- The CASE expression of `fetch_user_alerts`. -/
def classifyAlertStatus (start_t end_t : Option Int) (now : Int) : String :=
  if sqlStartFuture start_t now then "upcoming"
  else if sqlEndPast end_t now then "past"
  else "active"

/-- An output row of `fetch_user_alerts`. -/
structure UserAlertRow where
  alert_id : String
  header_text : Option String
  description_text : Option String
  start_time : Option Int
  end_time : Option Int
  alert_status : String
  entity_id : Option String
deriving DecidableEq

/-- `COALESCE(ie.route_id, ie.stop_id)`. -/
def coalesceEntity (route stop : Option String) : Option String :=
  match route with
  | some r => some r
  | none => stop

/-- The join and projection of `fetch_user_alerts`, before `ORDER BY`:
`alerts ⋈ active_periods ⋈ informed_entities ⋈ subscriptions` where the
subscription matches the entity's route or stop under SQL NULL semantics
and belongs to the queried user. -/
def userAlertRows (alerts : List AlertsRow) (periods : List ActivePeriodRow)
    (ents : List InformedEntityRow) (subs : List SubscriptionRow)
    (uid : Nat) (now : Int) : List UserAlertRow :=
  alerts.flatMap fun a =>
    periods.flatMap fun ap =>
      ents.flatMap fun ie =>
        subs.filterMap fun sb =>
          if a.alert_id = ap.alert_id ∧ a.alert_id = ie.alert_id ∧
             sb.user_id = uid ∧
             (sqlEqOpt sb.route_id ie.route_id ∨ sqlEqOpt sb.stop_id ie.stop_id)
          then some
            ⟨a.alert_id, a.header_text, a.description_text,
             ap.start_time, ap.end_time,
             classifyAlertStatus ap.start_time ap.end_time now,
             coalesceEntity ie.route_id ie.stop_id⟩
          else none

/-- Nullable ascending string order with NULLS LAST (Postgres default). -/
def optStrLeNL (a b : Option String) : Bool :=
  match a, b with
  | some x, some y => decide (x ≤ y)
  | some _, none => true
  | none, some _ => false
  | none, none => true

/-- Nullable ascending integer order with NULLS LAST (Postgres default). -/
def optIntLeNL (a b : Option Int) : Bool :=
  match a, b with
  | some x, some y => decide (x ≤ y)
  | some _, none => true
  | none, some _ => false
  | none, none => true

/-- `ORDER BY entity_id, alert_status DESC, ap.start_time ASC`. -/
def userAlertLe (a b : UserAlertRow) : Prop :=
  (if a.entity_id = b.entity_id then
    if a.alert_status = b.alert_status then
      optIntLeNL a.start_time b.start_time
    else decide (b.alert_status ≤ a.alert_status)
  else optStrLeNL a.entity_id b.entity_id) = true

instance : DecidableRel userAlertLe := fun a b => by
  unfold userAlertLe; infer_instance

/-- `fetch_user_alerts` from `src/utils/bot_queries.py`. -/
def fetch_user_alerts (alerts : List AlertsRow) (periods : List ActivePeriodRow)
    (ents : List InformedEntityRow) (subs : List SubscriptionRow)
    (uid : Nat) (now : Int) : List UserAlertRow :=
  List.insertionSort userAlertLe (userAlertRows alerts periods ents subs uid now)

/-- `ORDER BY stop_name, address, stop_id` for `get_station_options`. -/
def stopsOrd (a b : StopsRow) : Prop :=
  (if a.stop_name = b.stop_name then
    if a.address = b.address then decide (a.stop_id ≤ b.stop_id)
    else optStrLeNL a.address b.address
  else decide (a.stop_name ≤ b.stop_name)) = true

instance : DecidableRel stopsOrd := fun a b => by
  unfold stopsOrd; infer_instance

/-- SQL `stop_id LIKE '%N'`: the id ends with the given suffix, modelled
over the underlying character list. -/
def likeEndsWith (s suffix : String) : Bool :=
  List.isSuffixOf suffix.data s.data

/-- `DISTINCT ON (stop_name, address)` over the ordered list: keep the
first row of each (name, address) group. -/
def distinctOnNameAddrAux (seen : List (String × Option String)) :
    List StopsRow → List StopsRow
  | [] => []
  | s :: rest =>
      if (s.stop_name, s.address) ∈ seen then distinctOnNameAddrAux seen rest
      else s :: distinctOnNameAddrAux ((s.stop_name, s.address) :: seen) rest

/-- `get_station_options` from `src/utils/bot_queries.py`:
`WHERE stop_id NOT LIKE '%N' AND stop_id NOT LIKE '%S'`, ordered, then
`DISTINCT ON (stop_name, address)`, projected to
`(stop_id, stop_name, address, trains)` tuples. -/
def get_station_options (stops : List StopsRow) :
    List (String × String × Option String × Option String) :=
  let filtered := stops.filter fun s =>
    !(likeEndsWith s.stop_id ("N")) && !(likeEndsWith s.stop_id ("S"))
  let sorted := List.insertionSort stopsOrd filtered
  let picked := distinctOnNameAddrAux [] sorted
  picked.map fun s => (s.stop_id, s.stop_name, s.address, s.trains)

/-! ## Subscription handlers (`src/utils/bot_helpers.py`) -/

/-- Python `dict.get(key, None)` over the reverse station/route maps. -/
def dictGet (m : List (String × String)) (k : String) : Option String :=
  (m.find? fun p => p.1 == k).map (·.2)

/-- `BotFunctionality.handle_station_subscription`: look the station name
up in `STATION_MAP_REVERSE` (`None` when absent), check for an existing
subscription with `stop_id = %s` (never true against NULL), and otherwise
insert `(user_id, stop_id, None)`. -/
def handle_station_subscription (stationMapRev : List (String × String))
    (subs : List SubscriptionRow) (uid : Nat) (station : String)
    (nextSubId : Nat) : List SubscriptionRow :=
  let stop_id := dictGet stationMapRev station
  let already := subs.any fun r => r.user_id == uid && sqlEqOpt r.stop_id stop_id
  if already then subs
  else subs ++ [⟨nextSubId, uid, stop_id, none⟩]

/-- `BotFunctionality.handle_route_subscription`: the dual of the station
handler, inserting `(user_id, None, route_id)`. -/
def handle_route_subscription (routeMapRev : List (String × String))
    (subs : List SubscriptionRow) (uid : Nat) (route_name : String)
    (nextSubId : Nat) : List SubscriptionRow :=
  let route_id := dictGet routeMapRev route_name
  let already := subs.any fun r => r.user_id == uid && sqlEqOpt r.route_id route_id
  if already then subs
  else subs ++ [⟨nextSubId, uid, none, route_id⟩]

/-! ## Concrete fixtures shared by counterexamples and witnesses -/

/-- A well-behaved trip-update entity with no start date/time and no stop
times. -/
def tripEnt (eid tid rid : String) : FeedEntity :=
  ⟨eid, some ⟨⟨tid, "", "", rid⟩, []⟩, none, false⟩

/-- An entity whose processing raises (e.g. a malformed start date fed to
`datetime.strptime`). -/
def badEnt : FeedEntity :=
  ⟨"bad", none, none, true⟩

/-- Two feeds: the first contains a good entity, then a raising entity,
then another good entity; the second feed is entirely good. -/
def c3feeds : List Feed :=
  [⟨[tripEnt ("e1") ("T1") ("R1"), badEnt, tripEnt ("e2") ("T2") ("R2")]⟩,
   ⟨[tripEnt ("e3") ("T3") ("R3")]⟩]

/-! ## C5 -/

/-- C5: for every decoded trip-update entity, the derived start timestamp
is non-null if and only if both the start date and the start time fields
are present (non-empty) in the entity; when either is absent it is exactly
null. -/
theorem c5_start_datetime_iff (tu : TripUpdateEntity) :
    (decodeTripRow tu).start_datetime ≠ none ↔
      (tu.trip.start_date ≠ "" ∧ tu.trip.start_time ≠ "") := by
  by_cases ht : tu.trip.start_time = ""
  · simp [decodeTripRow, ht]
  · by_cases hd : tu.trip.start_date = ""
    · simp [decodeTripRow, ht, hd]
    · simp [decodeTripRow, ht, hd]

/-! ## C3 -/

/-- C3 counterexample: with a raising entity in the middle of the first
feed, the decoder returns only the records accumulated before the failure:
the failing feed's earlier entity IS in the output (not empty output for
that feed), and the second feed's entity is NOT decoded (the exception
aborts the whole batch, not just the entity or its feed). -/
theorem c3_decode_abort_counterexample :
    (process_gtfs_feed_data c3feeds).trip_updates =
      [⟨"T1", none, "R1"⟩] ∧
    (⟨"T3", none, "R3"⟩ : TripUpdateRow) ∉
      (process_gtfs_feed_data c3feeds).trip_updates := by
  decide

/-- Entity processing with no raising entity is a plain fold. -/
theorem processEntities_no_raise (es : List FeedEntity) :
    ∀ acc : DecodedBatch, (∀ e ∈ es, e.raises = false) →
      processEntities acc es = (es.foldl processEntity acc, false) := by
  induction es with
  | nil => intro acc _; rfl
  | cons e rest ih =>
      intro acc h
      have he : e.raises = false := h e (List.mem_cons_self e rest)
      have hr : ∀ x ∈ rest, x.raises = false :=
        fun x hx => h x (List.mem_cons_of_mem e hx)
      simp only [processEntities, he, Bool.false_eq_true, if_false, List.foldl]
      exact ih (processEntity acc e) hr

/-- Entity processing stops at the first raising entity and reports the
escape. -/
theorem processEntities_raise_mid (es₁ es₂ : List FeedEntity)
    (bad : FeedEntity) (hbad : bad.raises = true) :
    ∀ acc : DecodedBatch, (∀ e ∈ es₁, e.raises = false) →
      processEntities acc (es₁ ++ bad :: es₂) =
        (es₁.foldl processEntity acc, true) := by
  induction es₁ with
  | nil => intro acc _; simp [processEntities, hbad]
  | cons e rest ih =>
      intro acc h
      have he : e.raises = false := h e (List.mem_cons_self e rest)
      have hr : ∀ x ∈ rest, x.raises = false :=
        fun x hx => h x (List.mem_cons_of_mem e hx)
      simp only [List.cons_append, processEntities, he, Bool.false_eq_true,
        if_false, List.foldl]
      exact ih (processEntity acc e) hr

/-- Feed processing over raising-free feeds is a plain fold. -/
theorem processFeedsFrom_no_raise (fs : List Feed) :
    ∀ (acc : DecodedBatch) (rest : List Feed),
      (∀ f ∈ fs, ∀ e ∈ f.entity, e.raises = false) →
      processFeedsFrom acc (fs ++ rest) =
        processFeedsFrom
          (fs.foldl (fun a f => f.entity.foldl processEntity a) acc) rest := by
  induction fs with
  | nil => intro acc rest _; rfl
  | cons f fr ih =>
      intro acc rest h
      have hf : ∀ e ∈ f.entity, e.raises = false :=
        h f (List.mem_cons_self f fr)
      have hfr : ∀ g ∈ fr, ∀ e ∈ g.entity, e.raises = false :=
        fun g hg => h g (List.mem_cons_of_mem f hg)
      simp only [List.cons_append, processFeedsFrom,
        processEntities_no_raise f.entity acc hf, List.foldl]
      exact ih (f.entity.foldl processEntity acc) rest hfr

/-- C3 amended: an exception raised while processing one entity aborts the
whole decode, not just that entity's feed: the result equals what decoding
only the earlier raising-free feeds plus the failing feed's entities
strictly before the failing entity produces.  Records already accumulated
from the failing feed are kept (its output is not empty), and all entities
after the failing one — in the same feed and in every later feed — yield
nothing. -/
theorem c3_decode_abort_amended (fs₁ fs₂ : List Feed)
    (es₁ es₂ : List FeedEntity) (bad : FeedEntity)
    (h1 : ∀ f ∈ fs₁, ∀ e ∈ f.entity, e.raises = false)
    (h2 : ∀ e ∈ es₁, e.raises = false)
    (hbad : bad.raises = true) :
    process_gtfs_feed_data (fs₁ ++ (⟨es₁ ++ bad :: es₂⟩ : Feed) :: fs₂) =
      process_gtfs_feed_data (fs₁ ++ [(⟨es₁⟩ : Feed)]) := by
  unfold process_gtfs_feed_data
  rw [processFeedsFrom_no_raise fs₁ DecodedBatch.empty _ h1,
      processFeedsFrom_no_raise fs₁ DecodedBatch.empty _ h1]
  set acc := fs₁.foldl (fun a f => f.entity.foldl processEntity a)
    DecodedBatch.empty
  simp only [processFeedsFrom, processEntities_raise_mid es₁ es₂ bad hbad acc h2,
    processEntities_no_raise es₁ acc h2]

/-- Closed instance of the amended C3 theorem at a concrete batch. -/
theorem c3_decode_abort_amended_witness :
    process_gtfs_feed_data
        [(⟨[tripEnt ("w1") ("T1") ("R1"), badEnt]⟩ : Feed),
         (⟨[tripEnt ("w2") ("T2") ("R2")]⟩ : Feed)] =
      process_gtfs_feed_data [(⟨[tripEnt ("w1") ("T1") ("R1")]⟩ : Feed)] :=
  c3_decode_abort_amended [] [⟨[tripEnt ("w2") ("T2") ("R2")]⟩]
    [tripEnt ("w1") ("T1") ("R1")] [] badEnt
    (by intro f hf; exact absurd hf (List.not_mem_nil f))
    (by intro e he
        rw [List.mem_singleton] at he
        subst he
        rfl)
    (by rfl)

/-! ## C4 -/

/-- C4 counterexample: a malformed payload for the first feed group raises
an uncaught protobuf decode error that aborts the whole fetch loop — the
second, healthy group is not excluded-and-continued but lost with the
cycle. -/
theorem c4_malformed_payload_aborts :
    fetchFeedList [.malformedPayload, .success [tripEnt ("g") ("T9") ("R9")]] =
      .error ("DecodeError") := by
  rfl

/-- C4 amended: feed groups are fetched independently and a network error
or non-success HTTP status for one group yields `None` for it, is skipped,
and never aborts the others — but only those `RequestException` failures
are tolerated; a malformed binary payload is outside the handled class
(see the counterexample). -/
theorem c4_fetch_isolation_amended (outs : List FetchOutcome)
    (h : ∀ o ∈ outs, o ≠ FetchOutcome.malformedPayload) :
    fetchFeedList outs =
      .ok (outs.filterMap fun o =>
        match o with
        | .success es => some ⟨es⟩
        | _ => none) := by
  induction outs with
  | nil => rfl
  | cons o os ih =>
      have ho := h o (List.mem_cons_self o os)
      have hos : ∀ x ∈ os, x ≠ FetchOutcome.malformedPayload :=
        fun x hx => h x (List.mem_cons_of_mem o hx)
      cases o with
      | success es =>
          simp only [fetchFeedList, fetch_gtfs_realtime_data, ih hos,
            List.filterMap_cons]
      | requestFailure =>
          simp only [fetchFeedList, fetch_gtfs_realtime_data, ih hos,
            List.filterMap_cons]
      | malformedPayload => exact absurd rfl ho

/-- Closed instance of the amended C4 theorem: one failed group, one good
group — the batch is exactly the good group's feed. -/
theorem c4_fetch_isolation_amended_witness :
    fetchFeedList [.requestFailure, .success [tripEnt ("g") ("T9") ("R9")]] =
      .ok [(⟨[tripEnt ("g") ("T9") ("R9")]⟩ : Feed)] := by
  have h := c4_fetch_isolation_amended
    [.requestFailure, .success [tripEnt ("g") ("T9") ("R9")]]
    (by intro o hrec
        simp only [List.mem_cons, List.not_mem_nil, or_false] at hrec
        rcases hrec with h1 | h1 <;> subst h1 <;> intro hc <;>
          exact FetchOutcome.noConfusion hc)
  simpa using h

/-! ## C8 -/

/-- Prior live state for the C8 counterexample: one trip and one stop row. -/
def c8s0 : LiveState :=
  ⟨[⟨"Told", none, "1"⟩], [⟨0, "Told", "127N", none, some 100⟩], 1⟩

/-- New batch for the C8 counterexample. -/
def c8trips : List TripUpdateRow := [⟨"Tnew", none, "2"⟩]

/-- New stop-time batch for the C8 counterexample. -/
def c8stops : List StopTimeRow := [⟨"Tnew", "127N", none, some 200⟩]

/-- C8 counterexample: a storage error at the trip-insert statement (after
the two deletes have each committed in their own transactions) surfaces the
error but leaves a visible state that is neither the prior live state nor
the reconciled one — both live tables are empty although both the prior
state and the batch are non-empty, i.e. a half-replaced state is visible. -/
theorem c8_half_replaced_state_visible :
    (runRealtimeCycle c8s0 c8trips c8stops (some 2)).2 = true ∧
    (runRealtimeCycle c8s0 c8trips c8stops (some 2)).1.trips_real_time = [] ∧
    (runRealtimeCycle c8s0 c8trips c8stops (some 2)).1.stop_time_update = [] ∧
    (runRealtimeCycle c8s0 c8trips c8stops (some 2)).1 ≠ c8s0 ∧
    (runRealtimeCycle c8s0 c8trips c8stops (some 2)).1 ≠
      (runRealtimeCycle c8s0 c8trips c8stops none).1 := by
  decide

/-- C8 amended: each single SQL statement is atomic (a failing statement
has no effect) and the realtime pipeline surfaces the error, but the
reconciliation unit spanning four separately-committed statements is not
atomic: a failure at the insert stage leaves the emptied,
deleted-but-not-reinserted live state durably visible.  A failure-free run
equals the intended replace. -/
theorem c8_reconcile_not_atomic_amended (s : LiveState)
    (trips : List TripUpdateRow) (stops : List StopTimeRow) :
    runRealtimeCycle s trips stops none = (realtimeReconcile s trips stops, false) ∧
    (runRealtimeCycle s trips stops (some 2)).2 = true ∧
    (runRealtimeCycle s trips stops (some 2)).1 =
      { s with trips_real_time := [], stop_time_update := [] } := by
  refine ⟨rfl, rfl, rfl⟩

/-! ## C9 -/

/-- The reverse station map fixture for C9: one known station label. -/
def c9map : List (String × String) := [("Times Sq, NYC (1)", "127")]

/-- C9 counterexample: subscribing with a station name that is not a key of
the reverse station map inserts a subscription row whose stop id AND route
id are both NULL — contradicting that no code path inserts a both-null
row. -/
theorem c9_unknown_station_inserts_null_pair :
    handle_station_subscription c9map [] 1 ("Nowhere") 1 =
      [⟨1, 1, none, none⟩] := by
  decide

/-- C9 amended: a station subscription always inserts `route_id = NULL`
with `stop_id` equal to the station-map lookup, and a route subscription
always inserts `stop_id = NULL` with `route_id` equal to the route-map
lookup — so no inserted row ever has both targets set, but the lookup is
NULL (hence a both-NULL row) when the supplied name is unknown. -/
theorem c9_subscription_targets_amended (m : List (String × String))
    (subs : List SubscriptionRow) (uid : Nat) (name : String) (nid : Nat) :
    (∀ r ∈ handle_station_subscription m subs uid name nid,
        r ∈ subs ∨ (r.route_id = none ∧ r.stop_id = dictGet m name)) ∧
    (∀ r ∈ handle_route_subscription m subs uid name nid,
        r ∈ subs ∨ (r.stop_id = none ∧ r.route_id = dictGet m name)) := by
  constructor
  · intro r hr
    unfold handle_station_subscription at hr
    by_cases hc : (subs.any fun x =>
        x.user_id == uid && sqlEqOpt x.stop_id (dictGet m name)) = true
    · rw [if_pos hc] at hr
      exact Or.inl hr
    · rw [if_neg hc] at hr
      rcases List.mem_append.mp hr with h1 | h1
      · exact Or.inl h1
      · rw [List.mem_singleton] at h1
        subst h1
        exact Or.inr ⟨rfl, rfl⟩
  · intro r hr
    unfold handle_route_subscription at hr
    by_cases hc : (subs.any fun x =>
        x.user_id == uid && sqlEqOpt x.route_id (dictGet m name)) = true
    · rw [if_pos hc] at hr
      exact Or.inl hr
    · rw [if_neg hc] at hr
      rcases List.mem_append.mp hr with h1 | h1
      · exact Or.inl h1
      · rw [List.mem_singleton] at h1
        subst h1
        exact Or.inr ⟨rfl, rfl⟩

/-- Closed instance of the amended C9 theorem: subscribing to the known
station inserts a row with the looked-up stop id and a NULL route id. -/
theorem c9_subscription_targets_amended_witness :
    (⟨5, 2, some ("127"), none⟩ : SubscriptionRow) ∈ ([] : List SubscriptionRow) ∨
      ((⟨5, 2, some ("127"), none⟩ : SubscriptionRow).route_id = none ∧
        (⟨5, 2, some ("127"), none⟩ : SubscriptionRow).stop_id =
          dictGet c9map ("Times Sq, NYC (1)")) :=
  (c9_subscription_targets_amended c9map [] 2 ("Times Sq, NYC (1)") 5).1
    ⟨5, 2, some ("127"), none⟩ (by decide)

/-! ## C1 -/

/-- The data columns of a stored stop-time row (everything except the
SERIAL id). -/
def stopRowData (r : StopTimeTableRow) : StopTimeRow :=
  ⟨r.trip_id, r.stop_id, r.arrival_time, r.departure_time⟩

/-- Inserting a stop-time batch appends every row verbatim: the only
constraint is the synthetic SERIAL key, so nothing is deduplicated. -/
theorem insertStopTimesDoNothing_map (rows : List StopTimeRow) :
    ∀ (table : List StopTimeTableRow) (next : Nat),
      ((insertStopTimesDoNothing table next rows).1).map stopRowData =
        table.map stopRowData ++ rows := by
  induction rows with
  | nil => intro table next; simp [insertStopTimesDoNothing]
  | cons r rs ih =>
      intro table next
      simp only [insertStopTimesDoNothing, ih, List.map_append, List.map_cons,
        List.map_nil, List.append_assoc, List.nil_append, List.cons_append,
        List.singleton_append]
      rfl

/-- Trip insertion with `ON CONFLICT DO NOTHING` preserves distinctness of
trip ids. -/
theorem insertTripsDoNothing_pairwise (batch : List TripUpdateRow) :
    ∀ table : List TripUpdateRow,
      table.Pairwise (fun a b => a.trip_id ≠ b.trip_id) →
      (insertTripsDoNothing table batch).Pairwise
        (fun a b => a.trip_id ≠ b.trip_id) := by
  induction batch with
  | nil => intro table ht; exact ht
  | cons r rs ih =>
      intro table ht
      unfold insertTripsDoNothing
      by_cases hc : (table.any fun t => t.trip_id = r.trip_id) = true
      · rw [if_pos hc]; exact ih table ht
      · rw [if_neg hc]
        refine ih (table ++ [r]) ?_
        rw [List.pairwise_append]
        refine ⟨ht, List.pairwise_singleton _ _, ?_⟩
        intro a ha b hb
        rw [List.mem_singleton] at hb
        subst hb
        simp only [List.any_eq_true, decide_eq_true_eq, not_exists] at hc
        exact fun he => hc a ⟨ha, he⟩

/-- The set of trip ids after trip insertion is the union of the table's
and the batch's. -/
theorem insertTripsDoNothing_ids (batch : List TripUpdateRow) :
    ∀ (table : List TripUpdateRow) (tid : String),
      (∃ r ∈ insertTripsDoNothing table batch, r.trip_id = tid) ↔
        (∃ r ∈ table, r.trip_id = tid) ∨ ∃ r ∈ batch, r.trip_id = tid := by
  induction batch with
  | nil => intro table tid; simp [insertTripsDoNothing]
  | cons r rs ih =>
      intro table tid
      unfold insertTripsDoNothing
      by_cases hc : (table.any fun t => t.trip_id = r.trip_id) = true
      · rw [if_pos hc, ih table tid]
        simp only [List.any_eq_true, decide_eq_true_eq] at hc
        obtain ⟨t, htm, hte⟩ := hc
        constructor
        · rintro (h | h)
          · exact Or.inl h
          · exact Or.inr (by
              obtain ⟨x, hx, he⟩ := h
              exact ⟨x, List.mem_cons_of_mem r hx, he⟩)
        · rintro (h | ⟨x, hx, he⟩)
          · exact Or.inl h
          · rcases List.mem_cons.mp hx with h1 | h1
            · subst h1
              exact Or.inl ⟨t, htm, hte.trans he⟩
            · exact Or.inr ⟨x, h1, he⟩
      · rw [if_neg hc, ih (table ++ [r]) tid]
        constructor
        · rintro (⟨x, hx, he⟩ | h)
          · rcases List.mem_append.mp hx with h1 | h1
            · exact Or.inl ⟨x, h1, he⟩
            · rw [List.mem_singleton] at h1
              subst h1
              exact Or.inr ⟨x, List.mem_cons_self x rs, he⟩
          · exact Or.inr (by
              obtain ⟨x, hx, he⟩ := h
              exact ⟨x, List.mem_cons_of_mem r hx, he⟩)
        · rintro (⟨x, hx, he⟩ | ⟨x, hx, he⟩)
          · exact Or.inl ⟨x, List.mem_append_left _ hx, he⟩
          · rcases List.mem_cons.mp hx with h1 | h1
            · subst h1
              exact Or.inl ⟨x, List.mem_append_right _ (List.mem_singleton_self x), he⟩
            · exact Or.inr ⟨x, h1, he⟩

/-- Every row surviving trip insertion into a table it did not come from is
the first row of the batch carrying its trip id (first write wins). -/
theorem insertTripsDoNothing_find (batch : List TripUpdateRow) :
    ∀ (table : List TripUpdateRow) (r : TripUpdateRow),
      r ∈ insertTripsDoNothing table batch →
      r ∈ table ∨
        (batch.find? (fun x => x.trip_id == r.trip_id) = some r ∧
          ∀ t ∈ table, t.trip_id ≠ r.trip_id) := by
  induction batch with
  | nil => intro table r h; exact Or.inl h
  | cons b bs ih =>
      intro table r h
      unfold insertTripsDoNothing at h
      by_cases hc : (table.any fun t => t.trip_id = b.trip_id) = true
      · rw [if_pos hc] at h
        rcases ih table r h with h1 | ⟨h2, h3⟩
        · exact Or.inl h1
        · refine Or.inr ⟨?_, h3⟩
          simp only [List.any_eq_true, decide_eq_true_eq] at hc
          obtain ⟨t, htm, hte⟩ := hc
          have hne : b.trip_id ≠ r.trip_id := fun he =>
            h3 t htm (hte.trans he)
          rw [List.find?_cons_of_neg _ (by simpa using hne)]
          exact h2
      · rw [if_neg hc] at h
        simp only [List.any_eq_true, decide_eq_true_eq, not_exists] at hc
        have hfree : ∀ t ∈ table, t.trip_id ≠ b.trip_id :=
          fun t htm he => hc t ⟨htm, he⟩
        rcases ih (table ++ [b]) r h with h1 | ⟨h2, h3⟩
        · rcases List.mem_append.mp h1 with hm | hm
          · exact Or.inl hm
          · rw [List.mem_singleton] at hm
            subst hm
            refine Or.inr ⟨?_, hfree⟩
            rw [List.find?_cons_of_pos _ (by simp)]
        · have hne : b.trip_id ≠ r.trip_id :=
            h3 b (List.mem_append_right _ (List.mem_singleton_self b))
          refine Or.inr ⟨?_, fun t htm => h3 t (List.mem_append_left _ htm)⟩
          rw [List.find?_cons_of_neg _ (by simpa using hne)]
          exact h2

/-- A batch whose stop-time list repeats the same (trip, stop) pair. -/
def c1stops : List StopTimeRow :=
  [⟨"A", "S", none, none⟩, ⟨"A", "S", none, none⟩]

/-- C1 counterexample: after a reconciliation whose batch contains the
(trip "A", stop "S") pair twice, the `stop_time_update` table holds TWO
rows for that pair — the `ON CONFLICT DO NOTHING` clause cannot collapse
them because the table's only constrained column is its SERIAL id. -/
theorem c1_duplicate_stop_pair_survives :
    ((realtimeReconcile ⟨[], [], 0⟩ [] c1stops).stop_time_update.filter
        fun r => r.trip_id == ("A") && r.stop_id == ("S")).length = 2 := by
  decide

/-- C1 amended: after a realtime reconciliation the `trips_real_time`
table holds exactly one row per trip id of the batch, each being the FIRST
batch row with that id (duplicate trip ids collapse, first write wins) —
but the `stop_time_update` table holds ALL stop-time rows of the batch
verbatim, duplicates of a (trip id, stop id) pair included, and the prior
live state is wiped. -/
theorem c1_realtime_replace_amended (s : LiveState)
    (trips : List TripUpdateRow) (stops : List StopTimeRow) :
    ((realtimeReconcile s trips stops).trips_real_time.Pairwise
        fun a b => a.trip_id ≠ b.trip_id) ∧
    (∀ tid : String,
      (∃ r ∈ (realtimeReconcile s trips stops).trips_real_time,
          r.trip_id = tid) ↔ ∃ r ∈ trips, r.trip_id = tid) ∧
    (∀ r ∈ (realtimeReconcile s trips stops).trips_real_time,
        trips.find? (fun x => x.trip_id == r.trip_id) = some r) ∧
    ((realtimeReconcile s trips stops).stop_time_update.map stopRowData =
      stops) := by
  have htr : (realtimeReconcile s trips stops).trips_real_time =
      insertTripsDoNothing [] trips := rfl
  have hst : (realtimeReconcile s trips stops).stop_time_update =
      (insertStopTimesDoNothing [] s.next_id stops).1 := rfl
  refine ⟨?_, ?_, ?_, ?_⟩
  · rw [htr]
    exact insertTripsDoNothing_pairwise trips [] List.Pairwise.nil
  · intro tid
    rw [htr, insertTripsDoNothing_ids]
    simp
  · intro r hr
    rw [htr] at hr
    rcases insertTripsDoNothing_find trips [] r hr with h1 | ⟨h2, _⟩
    · exact absurd h1 (List.not_mem_nil r)
    · exact h2
  · rw [hst, insertStopTimesDoNothing_map]
    simp

/-- Closed instance of the amended C1 theorem: of two batch rows sharing
trip id "A", the surviving stored row is the first. -/
theorem c1_realtime_replace_amended_witness :
    ([⟨"A", none, "1"⟩, ⟨"A", none, "2"⟩] : List TripUpdateRow).find?
        (fun x => x.trip_id == ("A")) = some ⟨"A", none, "1"⟩ :=
  (c1_realtime_replace_amended ⟨[], [], 0⟩
      [⟨"A", none, "1"⟩, ⟨"A", none, "2"⟩] []).2.2.1
    ⟨"A", none, "1"⟩ (by decide)

/-! ## C2 -/

/-- The data columns of a stored active-period row. -/
def periodData (r : ActivePeriodRow) : Option Int × Option Int :=
  (r.start_time, r.end_time)

/-- The data columns of a stored informed-entity row. -/
def entityData (r : InformedEntityRow) :
    Option String × Option String × Option String :=
  (r.agency_id, r.route_id, r.stop_id)

/-- The rows produced by inserting one alert's periods from `next` on. -/
def mkPeriodRows (aid : String) :
    Nat → List (Option Int × Option Int) → List ActivePeriodRow
  | _, [] => []
  | next, (st, en) :: rs => ⟨next, aid, st, en⟩ :: mkPeriodRows aid (next + 1) rs

/-- The rows produced by inserting one alert's entities from `next` on. -/
def mkEntityRows (aid : String) :
    Nat → List (Option String × Option String × Option String) →
      List InformedEntityRow
  | _, [] => []
  | next, (ag, rt, sp) :: rs =>
      ⟨next, aid, ag, rt, sp⟩ :: mkEntityRows aid (next + 1) rs

/-- `insertPeriodRows` appends freshly-keyed rows. -/
theorem insertPeriodRows_eq (aid : String) (ps : List (Option Int × Option Int)) :
    ∀ (table : List ActivePeriodRow) (next : Nat),
      insertPeriodRows table next aid ps =
        (table ++ mkPeriodRows aid next ps, next + ps.length) := by
  induction ps with
  | nil => intro table next; simp [insertPeriodRows, mkPeriodRows]
  | cons p rs ih =>
      intro table next
      obtain ⟨st, en⟩ := p
      rw [insertPeriodRows, ih, Prod.mk.injEq]
      constructor
      · simp [mkPeriodRows]
      · simp only [List.length_cons]
        omega

/-- `insertEntityRows` appends freshly-keyed rows. -/
theorem insertEntityRows_eq (aid : String)
    (es : List (Option String × Option String × Option String)) :
    ∀ (table : List InformedEntityRow) (next : Nat),
      insertEntityRows table next aid es =
        (table ++ mkEntityRows aid next es, next + es.length) := by
  induction es with
  | nil => intro table next; simp [insertEntityRows, mkEntityRows]
  | cons p rs ih =>
      intro table next
      obtain ⟨ag, rt, sp⟩ := p
      rw [insertEntityRows, ih, Prod.mk.injEq]
      constructor
      · simp [mkEntityRows]
      · simp only [List.length_cons]
        omega

/-- All freshly inserted period rows carry the alert's id. -/
theorem mkPeriodRows_aid (aid : String) (ps : List (Option Int × Option Int)) :
    ∀ next, ∀ r ∈ mkPeriodRows aid next ps, r.alert_id = aid := by
  induction ps with
  | nil => intro next r hr; exact absurd hr (List.not_mem_nil r)
  | cons p rs ih =>
      intro next r hr
      obtain ⟨st, en⟩ := p
      rcases List.mem_cons.mp hr with h | h
      · subst h; rfl
      · exact ih (next + 1) r h

/-- All freshly inserted entity rows carry the alert's id. -/
theorem mkEntityRows_aid (aid : String)
    (es : List (Option String × Option String × Option String)) :
    ∀ next, ∀ r ∈ mkEntityRows aid next es, r.alert_id = aid := by
  induction es with
  | nil => intro next r hr; exact absurd hr (List.not_mem_nil r)
  | cons p rs ih =>
      intro next r hr
      obtain ⟨ag, rt, sp⟩ := p
      rcases List.mem_cons.mp hr with h | h
      · subst h; rfl
      · exact ih (next + 1) r h

/-- Freshly inserted period rows project back to the source list. -/
theorem mkPeriodRows_data (aid : String) (ps : List (Option Int × Option Int)) :
    ∀ next, (mkPeriodRows aid next ps).map periodData = ps := by
  induction ps with
  | nil => intro next; rfl
  | cons p rs ih =>
      intro next
      obtain ⟨st, en⟩ := p
      simp only [mkPeriodRows, List.map_cons, ih (next + 1)]
      rfl

/-- Freshly inserted entity rows project back to the source list. -/
theorem mkEntityRows_data (aid : String)
    (es : List (Option String × Option String × Option String)) :
    ∀ next, (mkEntityRows aid next es).map entityData = es := by
  induction es with
  | nil => intro next; rfl
  | cons p rs ih =>
      intro next
      obtain ⟨ag, rt, sp⟩ := p
      simp only [mkEntityRows, List.map_cons, ih (next + 1)]
      rfl

/-- The delete-then-filter composition leaves no row of the deleted key. -/
theorem periods_filter_ne_then_eq (l : List ActivePeriodRow) (aid : String) :
    ((l.filter fun r => r.alert_id ≠ aid).filter
        fun r => r.alert_id == aid) = [] := by
  induction l with
  | nil => rfl
  | cons x xs ih =>
      by_cases hx : x.alert_id = aid
      · simp [List.filter_cons, hx, ih]
      · simp [List.filter_cons, hx, ih]

/-- Same for informed entities. -/
theorem entities_filter_ne_then_eq (l : List InformedEntityRow) (aid : String) :
    ((l.filter fun r => r.alert_id ≠ aid).filter
        fun r => r.alert_id == aid) = [] := by
  induction l with
  | nil => rfl
  | cons x xs ih =>
      by_cases hx : x.alert_id = aid
      · simp [List.filter_cons, hx, ih]
      · simp [List.filter_cons, hx, ih]

/-- Deleting one alert's period rows does not disturb another alert's. -/
theorem periods_filter_ne_frame (l : List ActivePeriodRow) (aid tid : String)
    (h : tid ≠ aid) :
    ((l.filter fun r => r.alert_id ≠ aid).filter
        fun r => r.alert_id == tid) = l.filter fun r => r.alert_id == tid := by
  induction l with
  | nil => rfl
  | cons x xs ih =>
      by_cases hx : x.alert_id = aid
      · rw [List.filter_cons_of_neg (by simp [hx]),
          List.filter_cons_of_neg (by
            simp only [beq_iff_eq, hx]
            exact fun he => h he.symm)]
        exact ih
      · rw [List.filter_cons_of_pos (by simp [hx])]
        by_cases hxt : x.alert_id = tid
        · rw [List.filter_cons_of_pos (by simp [hxt]),
            List.filter_cons_of_pos (by simp [hxt]), ih]
        · rw [List.filter_cons_of_neg (by simp [hxt]),
            List.filter_cons_of_neg (by simp [hxt])]
          exact ih

/-- Same for informed entities. -/
theorem entities_filter_ne_frame (l : List InformedEntityRow) (aid tid : String)
    (h : tid ≠ aid) :
    ((l.filter fun r => r.alert_id ≠ aid).filter
        fun r => r.alert_id == tid) = l.filter fun r => r.alert_id == tid := by
  induction l with
  | nil => rfl
  | cons x xs ih =>
      by_cases hx : x.alert_id = aid
      · rw [List.filter_cons_of_neg (by simp [hx]),
          List.filter_cons_of_neg (by
            simp only [beq_iff_eq, hx]
            exact fun he => h he.symm)]
        exact ih
      · rw [List.filter_cons_of_pos (by simp [hx])]
        by_cases hxt : x.alert_id = tid
        · rw [List.filter_cons_of_pos (by simp [hxt]),
            List.filter_cons_of_pos (by simp [hxt]), ih]
        · rw [List.filter_cons_of_neg (by simp [hxt]),
            List.filter_cons_of_neg (by simp [hxt])]
          exact ih

/-- Filtering the fresh period rows by their own alert id keeps them all. -/
theorem mkPeriodRows_filter_eq (aid : String)
    (ps : List (Option Int × Option Int)) :
    ∀ next, (mkPeriodRows aid next ps).filter
        (fun r => r.alert_id == aid) = mkPeriodRows aid next ps := by
  induction ps with
  | nil => intro next; rfl
  | cons p rs ih =>
      intro next
      obtain ⟨st, en⟩ := p
      rw [mkPeriodRows, List.filter_cons_of_pos (by simp), ih (next + 1)]

/-- Filtering the fresh period rows by a different alert id drops them all. -/
theorem mkPeriodRows_filter_ne (aid tid : String) (h : tid ≠ aid)
    (ps : List (Option Int × Option Int)) :
    ∀ next, (mkPeriodRows aid next ps).filter
        (fun r => r.alert_id == tid) = [] := by
  induction ps with
  | nil => intro next; rfl
  | cons p rs ih =>
      intro next
      obtain ⟨st, en⟩ := p
      rw [mkPeriodRows, List.filter_cons_of_neg (by
        simp only [beq_iff_eq]
        exact fun he => h (by exact he.symm)), ih (next + 1)]

/-- Filtering the fresh entity rows by their own alert id keeps them all. -/
theorem mkEntityRows_filter_eq (aid : String)
    (es : List (Option String × Option String × Option String)) :
    ∀ next, (mkEntityRows aid next es).filter
        (fun r => r.alert_id == aid) = mkEntityRows aid next es := by
  induction es with
  | nil => intro next; rfl
  | cons p rs ih =>
      intro next
      obtain ⟨ag, rt, sp⟩ := p
      rw [mkEntityRows, List.filter_cons_of_pos (by simp), ih (next + 1)]

/-- Filtering the fresh entity rows by a different alert id drops them all. -/
theorem mkEntityRows_filter_ne (aid tid : String) (h : tid ≠ aid)
    (es : List (Option String × Option String × Option String)) :
    ∀ next, (mkEntityRows aid next es).filter
        (fun r => r.alert_id == tid) = [] := by
  induction es with
  | nil => intro next; rfl
  | cons p rs ih =>
      intro next
      obtain ⟨ag, rt, sp⟩ := p
      rw [mkEntityRows, List.filter_cons_of_neg (by
        simp only [beq_iff_eq]
        exact fun he => h (by exact he.symm)), ih (next + 1)]

/-- The header upsert (UPDATE branch or INSERT branch) does not disturb
rows of a different alert id. -/
theorem alerts_upsert_frame (l : List AlertsRow) (a : AlertRecord)
    (tid : String) (h : tid ≠ a.alert_id) :
    ((if l.any fun r => r.alert_id = a.alert_id then
        l.map fun r =>
          if r.alert_id = a.alert_id then
            { r with header_text := a.header_text,
                     description_text := a.description_text }
          else r
      else l ++ [⟨a.alert_id, a.header_text, a.description_text⟩]).filter
        fun r => r.alert_id == tid) = l.filter fun r => r.alert_id == tid := by
  by_cases hc : (l.any fun r => r.alert_id = a.alert_id) = true
  · rw [if_pos hc]
    clear hc
    induction l with
    | nil => rfl
    | cons x xs ih =>
        rw [List.map_cons]
        by_cases hx : x.alert_id = a.alert_id
        · rw [if_pos hx]
          rw [List.filter_cons_of_neg (by
              simp only [beq_iff_eq]
              show ¬ x.alert_id = tid
              rw [hx]
              exact fun he => h he.symm),
            List.filter_cons_of_neg (by
              simp only [beq_iff_eq, hx]
              exact fun he => h he.symm)]
          exact ih
        · rw [if_neg hx]
          by_cases hxt : x.alert_id = tid
          · rw [List.filter_cons_of_pos (by simp [hxt]),
              List.filter_cons_of_pos (by simp [hxt]), ih]
          · rw [List.filter_cons_of_neg (by simp [hxt]),
              List.filter_cons_of_neg (by simp [hxt])]
            exact ih
  · rw [if_neg hc, List.filter_append]
    have hnew : (([⟨a.alert_id, a.header_text, a.description_text⟩] :
        List AlertsRow).filter fun r => r.alert_id == tid) = [] := by
      rw [List.filter_cons_of_neg (by
        simp only [beq_iff_eq]
        exact fun he => h he.symm)]
      rfl
    rw [hnew, List.append_nil]

/-- The explicit shape of one alert-reconciliation step. -/
theorem reconcileAlert_eq (s : AlertDbState) (a : AlertRecord) :
    reconcileAlert s a =
      { alerts :=
          if s.alerts.any fun r => r.alert_id = a.alert_id then
            s.alerts.map fun r =>
              if r.alert_id = a.alert_id then
                { r with header_text := a.header_text,
                         description_text := a.description_text }
              else r
          else s.alerts ++ [⟨a.alert_id, a.header_text, a.description_text⟩],
        active_periods :=
          (s.active_periods.filter fun r => r.alert_id ≠ a.alert_id) ++
            mkPeriodRows a.alert_id s.next_id a.active_periods,
        informed_entities :=
          (s.informed_entities.filter fun r => r.alert_id ≠ a.alert_id) ++
            mkEntityRows a.alert_id (s.next_id + a.active_periods.length)
              a.informed_entities,
        next_id := s.next_id + a.active_periods.length +
          a.informed_entities.length } := by
  simp only [reconcileAlert, insertPeriodRows_eq, insertEntityRows_eq]

/-- One reconciliation step makes the stored periods and entities of the
processed alert exactly the batch record's lists. -/
theorem reconcileAlert_exact (s : AlertDbState) (a : AlertRecord) :
    (((reconcileAlert s a).active_periods.filter
        fun r => r.alert_id == a.alert_id).map periodData) = a.active_periods ∧
    (((reconcileAlert s a).informed_entities.filter
        fun r => r.alert_id == a.alert_id).map entityData) =
      a.informed_entities := by
  rw [reconcileAlert_eq]
  constructor
  · show ((((s.active_periods.filter fun r => r.alert_id ≠ a.alert_id) ++
        mkPeriodRows a.alert_id s.next_id a.active_periods).filter
          fun r => r.alert_id == a.alert_id).map periodData) = _
    rw [List.filter_append, periods_filter_ne_then_eq,
      mkPeriodRows_filter_eq, List.nil_append, mkPeriodRows_data]
  · show ((((s.informed_entities.filter fun r => r.alert_id ≠ a.alert_id) ++
        mkEntityRows a.alert_id (s.next_id + a.active_periods.length)
          a.informed_entities).filter
            fun r => r.alert_id == a.alert_id).map entityData) = _
    rw [List.filter_append, entities_filter_ne_then_eq,
      mkEntityRows_filter_eq, List.nil_append, mkEntityRows_data]

/-- One reconciliation step leaves every other alert's header, periods and
entities untouched. -/
theorem reconcileAlert_frame (s : AlertDbState) (a : AlertRecord)
    (tid : String) (h : tid ≠ a.alert_id) :
    ((reconcileAlert s a).alerts.filter fun r => r.alert_id == tid) =
      (s.alerts.filter fun r => r.alert_id == tid) ∧
    ((reconcileAlert s a).active_periods.filter fun r => r.alert_id == tid) =
      (s.active_periods.filter fun r => r.alert_id == tid) ∧
    ((reconcileAlert s a).informed_entities.filter fun r => r.alert_id == tid) =
      (s.informed_entities.filter fun r => r.alert_id == tid) := by
  rw [reconcileAlert_eq]
  refine ⟨alerts_upsert_frame s.alerts a tid h, ?_, ?_⟩
  · show (((s.active_periods.filter fun r => r.alert_id ≠ a.alert_id) ++
        mkPeriodRows a.alert_id s.next_id a.active_periods).filter
          fun r => r.alert_id == tid) = _
    rw [List.filter_append, periods_filter_ne_frame _ _ _ h,
      mkPeriodRows_filter_ne _ _ h, List.append_nil]
  · show (((s.informed_entities.filter fun r => r.alert_id ≠ a.alert_id) ++
        mkEntityRows a.alert_id (s.next_id + a.active_periods.length)
          a.informed_entities).filter
            fun r => r.alert_id == tid) = _
    rw [List.filter_append, entities_filter_ne_frame _ _ _ h,
      mkEntityRows_filter_ne _ _ h, List.append_nil]

/-- C2: for every alert A of a batch whose alert ids are distinct, after
the reconciliation loop A's stored active periods and informed entities
are exactly the batch record's lists (prior rows for A are deleted), and
every alert id not present in the batch keeps its header row, periods and
entities completely unchanged — per-alert scope, not a global wipe. -/
theorem c2_alert_reconcile_scoped (s : AlertDbState) (batch : List AlertRecord)
    (hdist : batch.Pairwise fun a b => a.alert_id ≠ b.alert_id) :
    (∀ a ∈ batch,
      (((reconcileAlerts s batch).active_periods.filter
          fun r => r.alert_id == a.alert_id).map periodData) =
        a.active_periods ∧
      (((reconcileAlerts s batch).informed_entities.filter
          fun r => r.alert_id == a.alert_id).map entityData) =
        a.informed_entities) ∧
    (∀ tid : String, (∀ a ∈ batch, a.alert_id ≠ tid) →
      ((reconcileAlerts s batch).alerts.filter fun r => r.alert_id == tid) =
        (s.alerts.filter fun r => r.alert_id == tid) ∧
      ((reconcileAlerts s batch).active_periods.filter
          fun r => r.alert_id == tid) =
        (s.active_periods.filter fun r => r.alert_id == tid) ∧
      ((reconcileAlerts s batch).informed_entities.filter
          fun r => r.alert_id == tid) =
        (s.informed_entities.filter fun r => r.alert_id == tid)) := by
  induction batch generalizing s with
  | nil =>
      refine ⟨fun a ha => absurd ha (List.not_mem_nil a), fun tid _ => ⟨rfl, rfl, rfl⟩⟩
  | cons a rest ih =>
      have ha : ∀ b ∈ rest, a.alert_id ≠ b.alert_id :=
        (List.pairwise_cons.mp hdist).1
      have hrest : rest.Pairwise fun x y => x.alert_id ≠ y.alert_id :=
        (List.pairwise_cons.mp hdist).2
      have hstep : reconcileAlerts s (a :: rest) =
          reconcileAlerts (reconcileAlert s a) rest := rfl
      obtain ⟨ihExact, ihFrame⟩ := ih (reconcileAlert s a) hrest
      constructor
      · intro b hb
        rcases List.mem_cons.mp hb with h1 | h1
        · subst h1
          have hfr := ihFrame b.alert_id (fun c hc he => ha c hc he.symm)
          rw [hstep]
          rw [hfr.2.1, hfr.2.2]
          exact (reconcileAlert_exact s b)
        · rw [hstep]
          exact ihExact b h1
      · intro tid htid
        have htid' : ∀ c ∈ rest, c.alert_id ≠ tid :=
          fun c hc => htid c (List.mem_cons_of_mem a hc)
        have hta : tid ≠ a.alert_id :=
          fun he => htid a (List.mem_cons_self a rest) he.symm
        obtain ⟨f1, f2, f3⟩ := ihFrame tid htid'
        obtain ⟨g1, g2, g3⟩ := reconcileAlert_frame s a tid hta
        rw [hstep]
        exact ⟨f1.trans g1, f2.trans g2, f3.trans g3⟩

/-- Pre-existing alert state for the C2 witness: an unrelated alert "B"
with one period and one entity. -/
def c2s0 : AlertDbState :=
  ⟨[⟨"B", some ("old B header"), none⟩],
   [⟨0, "B", some 5, some 6⟩],
   [⟨1, "B", none, some ("Q"), none⟩],
   2⟩

/-- Batch record for the C2 witness: alert "A" with one period and one
entity. -/
def c2a : AlertRecord :=
  ⟨"A", some ("hdr"), none, [(some 1, some 2)], [(none, none, some ("127"))]⟩

/-- Closed instance of C2 at a concrete state and batch: alert "A" ends up
with exactly its batch periods, and the untouched alert "B" keeps its
period rows. -/
theorem c2_alert_reconcile_scoped_witness :
    (((reconcileAlerts c2s0 [c2a]).active_periods.filter
        fun r => r.alert_id == c2a.alert_id).map periodData) =
      c2a.active_periods ∧
    ((reconcileAlerts c2s0 [c2a]).active_periods.filter
        fun r => r.alert_id == ("B")) =
      (c2s0.active_periods.filter fun r => r.alert_id == ("B")) := by
  have h := c2_alert_reconcile_scoped c2s0 [c2a] (List.pairwise_singleton _ _)
  exact ⟨(h.1 c2a (List.mem_singleton_self c2a)).1,
    (h.2 ("B") (by
      intro x hx
      rw [List.mem_singleton] at hx
      subst hx
      decide)).2.1⟩

/-! ## C6 -/

/-- Every joined candidate passed the `departure_time > NOW()` filter. -/
theorem mem_departureCands_future (trips : List TripUpdateRow)
    (stus : List StopTimeTableRow) (stops : List StopsRow)
    (station_id : String) (now : Int) (c : DepartureCand)
    (hc : c ∈ departureCands trips stus stops station_id now) :
    now < c.departure_time := by
  simp only [departureCands, List.mem_flatMap, List.mem_filterMap] at hc
  obtain ⟨t, ht, stu, hstu, s, hs, hm⟩ := hc
  split at hm
  · split at hm
    · rename_i hcond
      rw [Option.some.injEq] at hm
      subst hm
      exact hcond.2.2.2
    · exact absurd hm (by simp)
  · exact absurd hm (by simp)

/-- `DISTINCT ON` output is a sublist of its input. -/
theorem distinctOnRouteAux_sublist (l : List DepartureCand) :
    ∀ seen, List.Sublist (distinctOnRouteAux seen l) l := by
  induction l with
  | nil => intro seen; exact List.nil_sublist []
  | cons x xs ih =>
      intro seen
      by_cases hx : x.route_id ∈ seen
      · rw [distinctOnRouteAux, if_pos hx]
        exact (ih seen).cons x
      · rw [distinctOnRouteAux, if_neg hx]
        exact (ih (x.route_id :: seen)).cons₂ x

/-- `DISTINCT ON` never emits a route already marked as seen. -/
theorem distinctOnRouteAux_not_seen (l : List DepartureCand) :
    ∀ seen r, r ∈ distinctOnRouteAux seen l → r.route_id ∉ seen := by
  induction l with
  | nil => intro seen r hr; exact absurd hr (List.not_mem_nil r)
  | cons x xs ih =>
      intro seen r hr
      by_cases hx : x.route_id ∈ seen
      · rw [distinctOnRouteAux, if_pos hx] at hr
        exact ih seen r hr
      · rw [distinctOnRouteAux, if_neg hx] at hr
        rcases List.mem_cons.mp hr with h1 | h1
        · subst h1; exact hx
        · have hrec := ih _ r h1
          exact fun hmem => hrec (List.mem_cons_of_mem _ hmem)

/-- `DISTINCT ON` emits pairwise distinct routes. -/
theorem distinctOnRouteAux_pairwise (l : List DepartureCand) :
    ∀ seen, (distinctOnRouteAux seen l).Pairwise
      (fun a b => a.route_id ≠ b.route_id) := by
  induction l with
  | nil => intro seen; exact List.Pairwise.nil
  | cons x xs ih =>
      intro seen
      by_cases hx : x.route_id ∈ seen
      · rw [distinctOnRouteAux, if_pos hx]; exact ih seen
      · rw [distinctOnRouteAux, if_neg hx]
        refine List.pairwise_cons.mpr ⟨?_, ih _⟩
        intro b hb
        have hns := distinctOnRouteAux_not_seen xs _ b hb
        exact fun he => hns (he ▸ List.mem_cons_self x.route_id seen)

/-- On a list ordered by (route, departure), `DISTINCT ON` keeps for each
route a row whose departure is minimal among that route's rows. -/
theorem distinctOnRouteAux_min (l : List DepartureCand) :
    ∀ seen, l.Sorted depLe →
      ∀ r ∈ distinctOnRouteAux seen l, ∀ c ∈ l,
        c.route_id = r.route_id → r.departure_time ≤ c.departure_time := by
  induction l with
  | nil => intro seen _ r hr; exact absurd hr (List.not_mem_nil r)
  | cons x xs ih =>
      intro seen hs r hr c hc hcr
      have hx_rel : ∀ y ∈ xs, depLe x y := (List.sorted_cons.mp hs).1
      have hxs : xs.Sorted depLe := (List.sorted_cons.mp hs).2
      by_cases hx : x.route_id ∈ seen
      · rw [distinctOnRouteAux, if_pos hx] at hr
        rcases List.mem_cons.mp hc with h1 | h1
        · subst h1
          have hns := distinctOnRouteAux_not_seen xs seen r hr
          exact absurd (hcr ▸ hx) hns
        · exact ih seen hxs r hr c h1 hcr
      · rw [distinctOnRouteAux, if_neg hx] at hr
        rcases List.mem_cons.mp hr with h1 | h1
        · subst h1
          rcases List.mem_cons.mp hc with h2 | h2
          · subst h2; exact le_refl _
          · rcases hx_rel c h2 with hlt | ⟨heq, hle⟩
            · rw [hcr] at hlt
              exact absurd hlt (lt_irrefl _)
            · exact hle
        · rcases List.mem_cons.mp hc with h2 | h2
          · subst h2
            have hns := distinctOnRouteAux_not_seen xs _ r h1
            exact absurd (by rw [← hcr]; exact List.mem_cons_self _ _) hns
          · exact ih _ hxs r h1 c h2 hcr

/-- C6: station-departure resolution returns at most one row per distinct
route — for each returned row its departure is the earliest among all
joined candidates of that route — strictly ordered by route identifier;
every returned departure is strictly after query time, and the ETA is the
number of minutes between query time and the departure, rounded to the
nearest minute (half-minutes up). -/
theorem c6_station_departures_correct (trips : List TripUpdateRow)
    (stus : List StopTimeTableRow) (stops : List StopsRow)
    (station_id : String) (now : Int) :
    (∀ o ∈ get_station_departures trips stus stops station_id now,
        now < o.departure_time) ∧
    ((get_station_departures trips stus stops station_id now).Pairwise
        fun a b => a.route_id < b.route_id) ∧
    (∀ o ∈ get_station_departures trips stus stops station_id now,
        ∀ c ∈ departureCands trips stus stops station_id now,
          c.route_id = o.route_id → o.departure_time ≤ c.departure_time) ∧
    (∀ o ∈ get_station_departures trips stus stops station_id now,
        ∃ c ∈ departureCands trips stus stops station_id now,
          o.route_id = c.route_id ∧ o.departure_time = c.departure_time) ∧
    (∀ o ∈ get_station_departures trips stus stops station_id now,
        o.eta = etaMinutes (o.departure_time - now) ∧
        -30 ≤ (o.departure_time - now) - 60 * o.eta ∧
        (o.departure_time - now) - 60 * o.eta < 30) := by
  have hdef : get_station_departures trips stus stops station_id now =
      (distinctOnRouteAux []
        (List.insertionSort depLe
          (departureCands trips stus stops station_id now))).map
        (fun c => ⟨c.route_id, c.departure_time,
          etaMinutes (c.departure_time - now)⟩) := rfl
  have hsorted : (List.insertionSort depLe
      (departureCands trips stus stops station_id now)).Sorted depLe :=
    List.sorted_insertionSort depLe _
  have hperm : (List.insertionSort depLe
      (departureCands trips stus stops station_id now)).Perm
        (departureCands trips stus stops station_id now) :=
    List.perm_insertionSort depLe _
  have hmemchain : ∀ c, c ∈ distinctOnRouteAux []
      (List.insertionSort depLe
        (departureCands trips stus stops station_id now)) →
      c ∈ departureCands trips stus stops station_id now := by
    intro c hc
    exact hperm.subset ((distinctOnRouteAux_sublist _ []).subset hc)
  refine ⟨?_, ?_, ?_, ?_, ?_⟩
  · intro o ho
    rw [hdef] at ho
    obtain ⟨c, hcm, rfl⟩ := List.mem_map.mp ho
    exact mem_departureCands_future trips stus stops station_id now c
      (hmemchain c hcm)
  · rw [hdef, List.pairwise_map]
    have hps := hsorted.sublist (distinctOnRouteAux_sublist
      (List.insertionSort depLe
        (departureCands trips stus stops station_id now)) [])
    have hpw := distinctOnRouteAux_pairwise
      (List.insertionSort depLe
        (departureCands trips stus stops station_id now)) []
    refine (hps.and hpw).imp ?_
    intro a b hab
    rcases hab.1 with hlt | ⟨heq, _⟩
    · exact hlt
    · exact absurd heq hab.2
  · intro o ho c hc hroute
    rw [hdef] at ho
    obtain ⟨d, hdm, rfl⟩ := List.mem_map.mp ho
    exact distinctOnRouteAux_min _ [] hsorted d hdm c
      (hperm.symm.subset hc) hroute
  · intro o ho
    rw [hdef] at ho
    obtain ⟨c, hcm, rfl⟩ := List.mem_map.mp ho
    exact ⟨c, hmemchain c hcm, rfl, rfl⟩
  · intro o ho
    have hfut : now < o.departure_time := by
      rw [hdef] at ho
      obtain ⟨c, hcm, rfl⟩ := List.mem_map.mp ho
      exact mem_departureCands_future trips stus stops station_id now c
        (hmemchain c hcm)
    have heta : o.eta = etaMinutes (o.departure_time - now) := by
      rw [hdef] at ho
      obtain ⟨c, hcm, rfl⟩ := List.mem_map.mp ho
      rfl
    refine ⟨heta, ?_, ?_⟩ <;> rw [heta] <;> unfold etaMinutes <;> omega

/-- Concrete live data for the C6 witness. -/
def c6trips : List TripUpdateRow := [⟨"t1", none, "1"⟩]

/-- Concrete stop-time rows for the C6 witness. -/
def c6stus : List StopTimeTableRow := [⟨1, "t1", "127N", some 120, some 125⟩]

/-- Concrete stops rows for the C6 witness. -/
def c6stops : List StopsRow := [⟨"127N", "Times Sq", some ("NYC"), some ("1")⟩]

/-- Closed instance of C6 at the spec's scenario: the returned departure at
125 s for query time 0 is strictly future and its ETA rounds to 2 min. -/
theorem c6_station_departures_correct_witness :
    (0 : Int) < (⟨"1", 125, 2⟩ : DepartureOut).departure_time ∧
    (⟨"1", 125, 2⟩ : DepartureOut).eta =
      etaMinutes ((⟨"1", 125, 2⟩ : DepartureOut).departure_time - 0) :=
  ⟨(c6_station_departures_correct c6trips c6stus c6stops ("127N") 0).1
      ⟨"1", 125, 2⟩ (by decide),
   ((c6_station_departures_correct c6trips c6stus c6stops ("127N") 0).2.2.2.2
      ⟨"1", 125, 2⟩ (by decide)).1⟩

/-! ## C7 -/

/-- The `start_time > NOW()` test holds exactly for a non-NULL strictly
future start. -/
theorem sqlStartFuture_iff (t : Option Int) (now : Int) :
    sqlStartFuture t now = true ↔ ∃ s, t = some s ∧ now < s := by
  cases t <;> simp [sqlStartFuture]

/-- The `end_time < NOW()` test holds exactly for a non-NULL strictly past
end. -/
theorem sqlEndPast_iff (t : Option Int) (now : Int) :
    sqlEndPast t now = true ↔ ∃ e, t = some e ∧ e < now := by
  cases t <;> simp [sqlEndPast]

/-- Every joined row's status column is the CASE classification applied to
that row's own period bounds. -/
theorem mem_userAlertRows_status (alerts : List AlertsRow)
    (periods : List ActivePeriodRow) (ents : List InformedEntityRow)
    (subs : List SubscriptionRow) (uid : Nat) (now : Int)
    (row : UserAlertRow)
    (hrow : row ∈ userAlertRows alerts periods ents subs uid now) :
    row.alert_status = classifyAlertStatus row.start_time row.end_time now := by
  simp only [userAlertRows, List.mem_flatMap, List.mem_filterMap] at hrow
  obtain ⟨a, ha, ap, hap, ie, hie, sb, hsb, hm⟩ := hrow
  split at hm
  · rw [Option.some.injEq] at hm
    subst hm
    rfl
  · exact absurd hm (by simp)

/-- C7: each subscription-matched (alert, period) row is classified
exactly once — `upcoming` iff the period's start is non-NULL and strictly
after query time; `past` iff it is not upcoming and the end is non-NULL
and strictly before query time; `active` otherwise, which covers a NULL
bound on the relevant side. -/
theorem c7_alert_status_classification (alerts : List AlertsRow)
    (periods : List ActivePeriodRow) (ents : List InformedEntityRow)
    (subs : List SubscriptionRow) (uid : Nat) (now : Int) :
    ∀ row ∈ fetch_user_alerts alerts periods ents subs uid now,
      (row.alert_status = "upcoming" ↔
        ∃ s, row.start_time = some s ∧ now < s) ∧
      (row.alert_status = "past" ↔
        (¬(∃ s, row.start_time = some s ∧ now < s) ∧
          ∃ e, row.end_time = some e ∧ e < now)) ∧
      (row.alert_status = "active" ↔
        (¬(∃ s, row.start_time = some s ∧ now < s) ∧
          ¬(∃ e, row.end_time = some e ∧ e < now))) := by
  intro row hrow
  have hmem : row ∈ userAlertRows alerts periods ents subs uid now :=
    (List.perm_insertionSort userAlertLe _).subset hrow
  have hst := mem_userAlertRows_status alerts periods ents subs uid now row hmem
  rw [hst]
  unfold classifyAlertStatus
  by_cases h1 : sqlStartFuture row.start_time now = true
  · rw [if_pos h1]
    have hex := (sqlStartFuture_iff row.start_time now).mp h1
    exact ⟨⟨fun _ => hex, fun _ => rfl⟩,
      ⟨fun hc => absurd hc (by decide), fun hc => absurd hex hc.1⟩,
      ⟨fun hc => absurd hc (by decide), fun hc => absurd hex hc.1⟩⟩
  · rw [if_neg h1]
    have hs : ¬ ∃ s, row.start_time = some s ∧ now < s :=
      fun he => h1 ((sqlStartFuture_iff row.start_time now).mpr he)
    by_cases h2 : sqlEndPast row.end_time now = true
    · rw [if_pos h2]
      have hee := (sqlEndPast_iff row.end_time now).mp h2
      exact ⟨⟨fun hc => absurd hc (by decide), fun hc => absurd hc hs⟩,
        ⟨fun _ => ⟨hs, hee⟩, fun _ => rfl⟩,
        ⟨fun hc => absurd hc (by decide), fun hc => absurd hee hc.2⟩⟩
    · rw [if_neg h2]
      have hne : ¬ ∃ e, row.end_time = some e ∧ e < now :=
        fun he => h2 ((sqlEndPast_iff row.end_time now).mpr he)
      exact ⟨⟨fun hc => absurd hc (by decide), fun hc => absurd hc hs⟩,
        ⟨fun hc => absurd hc (by decide), fun hc => absurd hc.2 hne⟩,
        ⟨fun _ => ⟨hs, hne⟩, fun _ => rfl⟩⟩

/-- Concrete alert table for the C7 witness. -/
def c7alerts : List AlertsRow := [⟨"A1", some ("hdr"), none⟩]

/-- Concrete period (start = T - 10, NULL end) for the C7 witness. -/
def c7periods : List ActivePeriodRow := [⟨1, "A1", some (-10), none⟩]

/-- Concrete informed entity (stop-scoped) for the C7 witness. -/
def c7ents : List InformedEntityRow := [⟨2, "A1", none, none, some ("127")⟩]

/-- Concrete subscription (user 7 subscribed to stop 127) for the C7
witness. -/
def c7subs : List SubscriptionRow := [⟨1, 7, some ("127"), none⟩]

/-- Closed instance of C7: the row for a period with start = T-10 and NULL
end is classified `active` at T = 0. -/
theorem c7_alert_status_classification_witness :
    ((⟨"A1", some ("hdr"), none, some (-10), none, "active", some ("127")⟩ :
        UserAlertRow).alert_status = "active" ↔
      (¬(∃ s, (⟨"A1", some ("hdr"), none, some (-10), none, "active",
            some ("127")⟩ : UserAlertRow).start_time = some s ∧ (0 : Int) < s) ∧
        ¬(∃ e, (⟨"A1", some ("hdr"), none, some (-10), none, "active",
            some ("127")⟩ : UserAlertRow).end_time = some e ∧ e < (0 : Int)))) :=
  (c7_alert_status_classification c7alerts c7periods c7ents c7subs 7 0
    ⟨"A1", some ("hdr"), none, some (-10), none, "active", some ("127")⟩
    (by decide)).2.2

/-! ## C10 -/

/-- `DISTINCT ON (stop_name, address)` output is a sublist of its input. -/
theorem distinctOnNameAddrAux_sublist (l : List StopsRow) :
    ∀ seen, List.Sublist (distinctOnNameAddrAux seen l) l := by
  induction l with
  | nil => intro seen; exact List.nil_sublist []
  | cons x xs ih =>
      intro seen
      by_cases hx : (x.stop_name, x.address) ∈ seen
      · rw [distinctOnNameAddrAux, if_pos hx]
        exact (ih seen).cons x
      · rw [distinctOnNameAddrAux, if_neg hx]
        exact (ih ((x.stop_name, x.address) :: seen)).cons₂ x

/-- `DISTINCT ON (stop_name, address)` never emits a seen key. -/
theorem distinctOnNameAddrAux_not_seen (l : List StopsRow) :
    ∀ seen r, r ∈ distinctOnNameAddrAux seen l →
      (r.stop_name, r.address) ∉ seen := by
  induction l with
  | nil => intro seen r hr; exact absurd hr (List.not_mem_nil r)
  | cons x xs ih =>
      intro seen r hr
      by_cases hx : (x.stop_name, x.address) ∈ seen
      · rw [distinctOnNameAddrAux, if_pos hx] at hr
        exact ih seen r hr
      · rw [distinctOnNameAddrAux, if_neg hx] at hr
        rcases List.mem_cons.mp hr with h1 | h1
        · subst h1; exact hx
        · have hrec := ih _ r h1
          exact fun hmem => hrec (List.mem_cons_of_mem _ hmem)

/-- `DISTINCT ON (stop_name, address)` emits pairwise distinct keys. -/
theorem distinctOnNameAddrAux_pairwise (l : List StopsRow) :
    ∀ seen, (distinctOnNameAddrAux seen l).Pairwise
      (fun a b => (a.stop_name, a.address) ≠ (b.stop_name, b.address)) := by
  induction l with
  | nil => intro seen; exact List.Pairwise.nil
  | cons x xs ih =>
      intro seen
      by_cases hx : (x.stop_name, x.address) ∈ seen
      · rw [distinctOnNameAddrAux, if_pos hx]; exact ih seen
      · rw [distinctOnNameAddrAux, if_neg hx]
        refine List.pairwise_cons.mpr ⟨?_, ih _⟩
        intro b hb
        have hns := distinctOnNameAddrAux_not_seen xs _ b hb
        exact fun he => hns (he ▸ List.mem_cons_self (x.stop_name, x.address) seen)

/-- C10: the station listing never returns a directional platform (no
returned stop id ends with N or S), returns at most one row per
(stop name, address) pair, and each returned tuple is the projection of an
actual stops row carrying id, name, address and the serving-trains
string. -/
theorem c10_station_options_props (stops : List StopsRow) :
    (∀ row ∈ get_station_options stops,
        likeEndsWith row.1 ("N") = false ∧ likeEndsWith row.1 ("S") = false) ∧
    ((get_station_options stops).Pairwise
        fun a b => ¬(a.2.1 = b.2.1 ∧ a.2.2.1 = b.2.2.1)) ∧
    (∀ row ∈ get_station_options stops,
        ∃ s ∈ stops, row = (s.stop_id, s.stop_name, s.address, s.trains)) := by
  have hdef : get_station_options stops =
      (distinctOnNameAddrAux []
        (List.insertionSort stopsOrd (stops.filter fun s =>
          !(likeEndsWith s.stop_id ("N")) && !(likeEndsWith s.stop_id ("S"))))).map
        (fun s => (s.stop_id, s.stop_name, s.address, s.trains)) := rfl
  have hchain : ∀ s, s ∈ distinctOnNameAddrAux []
      (List.insertionSort stopsOrd (stops.filter fun s =>
        !(likeEndsWith s.stop_id ("N")) && !(likeEndsWith s.stop_id ("S")))) →
      s ∈ stops.filter fun s =>
        !(likeEndsWith s.stop_id ("N")) && !(likeEndsWith s.stop_id ("S")) := by
    intro s hs
    exact (List.perm_insertionSort stopsOrd _).subset
      ((distinctOnNameAddrAux_sublist _ []).subset hs)
  refine ⟨?_, ?_, ?_⟩
  · intro row hrow
    rw [hdef] at hrow
    obtain ⟨s, hsm, rfl⟩ := List.mem_map.mp hrow
    have hf := (List.mem_filter.mp (hchain s hsm)).2
    rw [Bool.and_eq_true, Bool.not_eq_true', Bool.not_eq_true'] at hf
    exact hf
  · rw [hdef, List.pairwise_map]
    refine (distinctOnNameAddrAux_pairwise _ []).imp ?_
    intro a b hab hc
    exact hab (by
      rw [Prod.mk.injEq]
      exact ⟨hc.1, hc.2⟩)
  · intro row hrow
    rw [hdef] at hrow
    obtain ⟨s, hsm, rfl⟩ := List.mem_map.mp hrow
    exact ⟨s, (List.mem_filter.mp (hchain s hsm)).1, rfl⟩

/-- Concrete stops table for the C10 witness: a station base row and its
northbound platform. -/
def c10stops : List StopsRow :=
  [⟨"127", "Times Sq", some ("NYC"), some ("1")⟩,
   ⟨"127N", "Times Sq", some ("NYC"), some ("1")⟩]

/-- Closed instance of C10: the returned base-station row's id ends with
neither N nor S. -/
theorem c10_station_options_props_witness :
    likeEndsWith (("127", "Times Sq", some ("NYC"), some ("1")) :
        String × String × Option String × Option String).1 ("N") = false ∧
    likeEndsWith (("127", "Times Sq", some ("NYC"), some ("1")) :
        String × String × Option String × Option String).1 ("S") = false :=
  (c10_station_options_props c10stops).1
    ("127", "Times Sq", some ("NYC"), some ("1")) (by decide)

end NextRide
